import Mathlib

/-!
Verification of the SERVIR job-collection and normalization pipeline.

Shallow embedding of the core ingestion-and-normalization code:
* generic free-text cleaning (`clean_text`, src/servir/src/cleaning/parsers/text_parser.py)
* job-title cleaning (`clean_job_title`, src/servir/src/processing/parsers/job_title_parser.py)
* field normalizers (`clean_date`, `clean_salary`, `clean_vacancy`,
  `transform_contract_type`, src/servir/src/cleaning/parsers/)
* the item validator (`validate_job_data`, src/servir/src/collecting/pipeline/job_validator.py)
* extraction with retry (`extract_job_with_retry`,
  src/servir/src/collecting/pipeline/job_processor.py)
* the collection orchestrator loop (`collect_all_servir_jobs`,
  src/servir/src/pipeline/orchestrator.py) and its statistics
  (src/servir/src/pipeline/statistics.py)
* the two-ranker title-classification fusion (src/debug.py).

Python strings are modelled as `List Char`; Python `None` / non-string inputs
are modelled by the `PyInput` type.  `re.sub` calls are modelled by dedicated
scanning functions, each faithful to the one concrete pattern the source uses.
-/

namespace Servir

/-- Abbreviation: a Python string is a list of characters. -/
abbrev Str := List Char

/-- The characters of a Lean string literal, used to write concrete inputs. -/
def pstr (s : String) : Str := s.data

/-- A raw Python argument: `None` (or any falsy non-string), a non-string
object, or a string.  `clean_*` parsers guard with
`if not x or not isinstance(x, str)`, which distinguishes exactly these cases
(the empty string is falsy and is kept as `str []` here, handled by the guard). -/
inductive PyInput where
  | pyNone : PyInput
  | nonStr : PyInput
  | str : Str → PyInput
deriving DecidableEq

/-- The guard `not x or not isinstance(x, str)`: true for `None`, any
non-string, and the empty string. -/
def PyInput.isEmptyOrNotStr : PyInput → Bool
  | .pyNone => true
  | .nonStr => true
  | .str s => s.isEmpty

/-- Python whitespace characters (space, tab, newline, carriage return,
vertical tab, form feed): the set used by `str.strip()`, `str.split()` and
the regex class `\s` on this ASCII data. -/
def isPySpace (c : Char) : Bool :=
  c.toNat == 32 || c.toNat == 9 || c.toNat == 10 || c.toNat == 11 ||
  c.toNat == 12 || c.toNat == 13

/-- The quote characters stripped by `.strip('"\'')`: double and single quote. -/
def isQuote (c : Char) : Bool :=
  c == '"' || c.toNat == 39

/-- `str.strip`-style: drop leading and trailing characters satisfying `p`. -/
def pyStrip (p : Char → Bool) (s : Str) : Str :=
  ((s.dropWhile p).reverse.dropWhile p).reverse

/-- `s.strip()` with no arguments: strip whitespace. -/
def pyStripWs (s : Str) : Str := pyStrip isPySpace s

/-- `s.split()`: split on whitespace runs, discarding empty pieces. -/
def pyWords (s : Str) : List Str :=
  (s.splitOnP isPySpace).filter (fun w => !w.isEmpty)

/-- `' '.join(s.split())`: collapse internal whitespace runs to one space and
drop leading/trailing whitespace. -/
def pyCollapseWs (s : Str) : Str :=
  List.intercalate [' '] (pyWords s)

/-- The character class `[¿¡\s]` of the inverted-punctuation regexes. -/
def isInvPunct (c : Char) : Bool :=
  c == '¿' || c == '¡' || isPySpace c

/-- The character class `[\s\-–•*.]` of the leading-bullet regex. -/
def isBullet (c : Char) : Bool :=
  isPySpace c || c == '-' || c == '–' || c == '•' || c == '*' || c == '.'

/-- `re.sub(r'^[cls]+', '', s, flags=re.MULTILINE)`: at every line start
(position 0 or right after a newline), delete the maximal run of characters
in `cls`.  `atStart` records whether the scanner is at a line start; it stays
true while a run is being deleted, and is refreshed from each kept character. -/
def subLineStartRuns (cls : Char → Bool) : Bool → Str → Str
  | _, [] => []
  | atStart, c :: cs =>
    if atStart && cls c then subLineStartRuns cls true cs
    else c :: subLineStartRuns cls (c == '\n') cs

/-- The sentinel returned when cleaning leaves nothing. -/
def noInfo : Str := pstr "NO INFO"

/-- `clean_text` (src/servir/src/cleaning/parsers/text_parser.py, default
flags): guard falsy/non-string input; strip whitespace; strip wrapping
quotes; strip `[¿¡\s]` runs from both ends; strip leading bullet/dash/period
runs at line starts; strip; collapse whitespace; empty result becomes the
`'NO INFO'` sentinel.  The Python `except` branch is unreachable here because
every step is total, so the embedding has no extra `None` path for it. -/
def clean_text : PyInput → Option Str
  | .pyNone => none
  | .nonStr => none
  | .str s =>
    if s.isEmpty then none
    else
      let c1 := pyStripWs s
      let c2 := pyStrip isQuote c1
      let c3 := c2.dropWhile isInvPunct
      let c4 := (c3.reverse.dropWhile isInvPunct).reverse
      let c5 := subLineStartRuns isBullet true c4
      let c6 := pyStripWs c5
      let c7 := pyCollapseWs c6
      if c7.isEmpty then some noInfo else some c7

/-! ### Item validator (src/servir/src/collecting/pipeline/job_validator.py) -/

/-- The thirteen field names of `FIELD_ORDER` / `REQUIRED_FIELDS`
(src/servir/src/extracting/config/config.py). -/
inductive Field where
  | posting_unique_id | institution | job_title
  | posting_start_date | posting_end_date
  | monthly_salary | number_of_vacancies | contract_type_raw
  | experience_requirements | academic_profile | specialization
  | knowledge | competencies
deriving DecidableEq

/-- `REQUIRED_FIELDS = FIELD_ORDER`: all thirteen fields, in declaration
order. -/
def REQUIRED_FIELDS : List Field :=
  [.posting_unique_id, .institution, .job_title,
   .posting_start_date, .posting_end_date,
   .monthly_salary, .number_of_vacancies, .contract_type_raw,
   .experience_requirements, .academic_profile, .specialization,
   .knowledge, .competencies]

/-- An extracted record: a dict from field names to values, where a value is
`none` for a missing key or a `None` value (`dict.get` does not distinguish
them) and `some s` for a string value. -/
def JobData := Field → Option Str

/-- A possibly absent record: `none` models `job_data` being `None` (or an
empty dict, equally falsy under `if not job_data`). -/
def JobDataOpt := Option JobData

/-- `is_data_complete`: all required fields are present and not `None`.
Note the code tests `is not None` only: an empty string counts as present. -/
def is_data_complete : JobDataOpt → Bool
  | none => false
  | some jd => REQUIRED_FIELDS.all (fun f => (jd f).isSome)

/-- `get_missing_fields`: the required fields whose value is `None`. -/
def get_missing_fields : JobDataOpt → List Field
  | none => REQUIRED_FIELDS
  | some jd => REQUIRED_FIELDS.filter (fun f => (jd f).isNone)

/-- The result of `validate_job_data` (the `errors` list only reports the
`job_data is None or empty` message and is not consumed by the pipeline). -/
structure ValidationResult where
  is_valid : Bool
  missing_fields : List Field
deriving DecidableEq

/-- `validate_job_data`: completeness plus the list of missing fields. -/
def validate_job_data (jd : JobDataOpt) : ValidationResult :=
  { is_valid := is_data_complete jd, missing_fields := get_missing_fields jd }

/-! ### Number and date primitives -/

/-- ASCII digit test. -/
def isDigit (c : Char) : Bool := 48 ≤ c.toNat && c.toNat ≤ 57

/-- Value of an ASCII digit. -/
def digitVal (c : Char) : Nat := c.toNat - 48

/-- Numeric value of a digit string (most significant first). -/
def natOfDigits (s : Str) : Nat := s.foldl (fun a c => 10 * a + digitVal c) 0

/-- The ASCII digit character for `k % 10` (as produced by `%d` formatting). -/
def digitChar (k : Nat) : Char := Char.ofNat (48 + k % 10)

/-- Two-digit zero-padded rendering (`%02d` for numbers below 100). -/
def pad2 (n : Nat) : Str := [digitChar (n / 10), digitChar n]

/-- Four-digit zero-padded rendering (`%04d` for numbers below 10000). -/
def pad4 (n : Nat) : Str :=
  [digitChar (n / 1000), digitChar (n / 100), digitChar (n / 10), digitChar n]

/-- `(s.span isDigit)`: leading digit run and the rest. -/
def spanDigits (s : Str) : Str × Str := s.span isDigit

/-- Optional leading sign, as accepted by `int()` and `float()`:
returns (negative?, rest). -/
def parseSign : Str → Bool × Str
  | '+' :: r => (false, r)
  | '-' :: r => (true, r)
  | s => (false, s)

/-- Model of Python `int(s)` on an already-stripped string: an optional sign
followed by one or more digits (digit-group underscores, unused by this data,
are not modelled). -/
def pyParseInt (s : Str) : Option Int :=
  let (neg, s1) := parseSign s
  let (d, r) := spanDigits s1
  if d.isEmpty || !r.isEmpty then none
  else some (if neg then -(natOfDigits d : Int) else (natOfDigits d : Int))

/-- Model of Python `float(s)` on an already-stripped string, as an exact
rational: optional sign, then `digits[.digits]`, `.digits` or `digits.`,
then an optional exponent part.  The special forms `inf`/`nan` and
digit-group underscores are not modelled (never produced by this data). -/
def pyParseFloat (s : Str) : Option Rat :=
  let (neg, s1) := parseSign s
  let (ip, s2) := spanDigits s1
  let mant : Option (Rat × Str) :=
    match s2 with
    | '.' :: s3 =>
      let (fp, s4) := spanDigits s3
      if ip.isEmpty && fp.isEmpty then none
      else some ((natOfDigits ip : Rat) + (natOfDigits fp : Rat) / (10 : Rat) ^ fp.length, s4)
    | _ => if ip.isEmpty then none else some ((natOfDigits ip : Rat), s2)
  match mant with
  | none => none
  | some (v, rest) =>
    match rest with
    | [] => some (if neg then -v else v)
    | c :: r =>
      if c == 'e' || c == 'E' then
        let (eneg, r1) := parseSign r
        let (ed, r2) := spanDigits r1
        if ed.isEmpty || !r2.isEmpty then none
        else
          let ex : Int := if eneg then -(natOfDigits ed : Int) else (natOfDigits ed : Int)
          some ((if neg then -v else v) * (10 : Rat) ^ ex)
      else none

/-- Day alternatives of `_strptime`'s `%d` regex, in alternation order:
`3[01] | [12]\d | 0[1-9] | [1-9] | ' '[1-9]`.  Each candidate is the parsed
value and the remaining input; the full parser backtracks through them. -/
def dayAlts : Str → List (Nat × Str)
  | c1 :: c2 :: rest =>
    (if c1 == '3' && (c2 == '0' || c2 == '1') then [(30 + digitVal c2, rest)] else []) ++
    (if (c1 == '1' || c1 == '2') && isDigit c2 then
      [(10 * digitVal c1 + digitVal c2, rest)] else []) ++
    (if c1 == '0' && isDigit c2 && c2 != '0' then [(digitVal c2, rest)] else []) ++
    (if isDigit c1 && c1 != '0' then [(digitVal c1, c2 :: rest)] else []) ++
    (if c1 == ' ' && isDigit c2 && c2 != '0' then [(digitVal c2, rest)] else [])
  | [c1] => if isDigit c1 && c1 != '0' then [(digitVal c1, [])] else []
  | [] => []

/-- Month alternatives of `_strptime`'s `%m` regex, in alternation order:
`1[0-2] | 0[1-9] | [1-9]`. -/
def monthAlts : Str → List (Nat × Str)
  | c1 :: c2 :: rest =>
    (if c1 == '1' && (c2 == '0' || c2 == '1' || c2 == '2') then
      [(10 + digitVal c2, rest)] else []) ++
    (if c1 == '0' && isDigit c2 && c2 != '0' then [(digitVal c2, rest)] else []) ++
    (if isDigit c1 && c1 != '0' then [(digitVal c1, c2 :: rest)] else [])
  | [c1] => if isDigit c1 && c1 != '0' then [(digitVal c1, [])] else []
  | [] => []

/-- `_strptime`'s `%Y` regex: exactly four digits. -/
def year4 : Str → Option (Nat × Str)
  | a :: b :: c :: d :: rest =>
    if isDigit a && isDigit b && isDigit c && isDigit d then
      some (natOfDigits [a, b, c, d], rest)
    else none
  | _ => none

/-- Try alternation candidates in order with a continuation (regex
backtracking). -/
def tryAlts (alts : List (Nat × Str)) (k : Nat → Str → Option α) : Option α :=
  match alts with
  | [] => none
  | (v, r) :: rest =>
    match k v r with
    | some x => some x
    | none => tryAlts rest k

/-- The literal `/` of the format string: consume it or fail. -/
def slashThen (k : Str → Option α) : Str → Option α
  | c :: r => if c == '/' then k r else none
  | [] => none

/-- `datetime.strptime(s, "%d/%m/%Y")`: day, slash, month, slash, four-digit
year, end of input.  Returns `(day, month, year)`. -/
def parse_dmY (s : Str) : Option (Nat × Nat × Nat) :=
  tryAlts (dayAlts s) fun d r1 =>
    slashThen (fun r2 =>
      tryAlts (monthAlts r2) fun m r3 =>
        slashThen (fun r4 =>
          match year4 r4 with
          | some (y, rest) => if rest.isEmpty then some (d, m, y) else none
          | none => none) r3) r1

/-- Gregorian leap year, as in `datetime`. -/
def isLeap (y : Nat) : Bool := y % 4 == 0 && (y % 100 != 0 || y % 400 == 0)

/-- Days in a month, as in `datetime`. -/
def daysInMonth (y m : Nat) : Nat :=
  if m == 2 then (if isLeap y then 29 else 28)
  else if m == 4 || m == 6 || m == 9 || m == 11 then 30
  else 31

/-- The range checks of the `datetime(y, m, d)` constructor (`MINYEAR = 1`,
`MAXYEAR = 9999`); violating them raises `ValueError` in `strptime`. -/
def dateValid (y m d : Nat) : Bool :=
  1 ≤ y && y ≤ 9999 && 1 ≤ m && m ≤ 12 && 1 ≤ d && d ≤ daysInMonth y m

/-- `date.strftime("%Y-%m-%d")`: ISO rendering (year zero-padded to four
digits, as for all years this data can carry). -/
def iso_of (y m d : Nat) : Str := pad4 y ++ '-' :: pad2 m ++ '-' :: pad2 d

/-- The canonical `DD/MM/YYYY` rendering of a calendar day (two-digit day
and month, four-digit year). -/
def renderDMY (d m y : Nat) : Str := pad2 d ++ '/' :: (pad2 m ++ '/' :: pad4 y)

/-- A field normalizer's result: the typed value or `None`, and the error
reason or `None` (the per-parser dict keys `date_iso`/`salary_amount`/
`vacancy_count`/`contract_type` all map to `value`). -/
structure FieldResult (α : Type) where
  value : Option α
  error : Option Str
deriving DecidableEq

/-- Error message for empty/non-string date input. -/
def dateEmptyMsg : Str := pstr "Date is empty or invalid type"

/-- Stem of the date parse-failure message (the interpolated Python exception
text is omitted from the model). -/
def dateParseFailMsg : Str := pstr "Failed to parse date string"

/-- `clean_date` (src/servir/src/cleaning/parsers/date_parser.py): guard
falsy/non-string input, strip whitespace, parse `%d/%m/%Y`, render ISO. -/
def clean_date : PyInput → FieldResult Str
  | .pyNone => ⟨none, some dateEmptyMsg⟩
  | .nonStr => ⟨none, some dateEmptyMsg⟩
  | .str s =>
    if s.isEmpty then ⟨none, some dateEmptyMsg⟩
    else
      match parse_dmY (pyStripWs s) with
      | some (d, m, y) =>
        if dateValid y m d then ⟨some (iso_of y m d), none⟩
        else ⟨none, some dateParseFailMsg⟩
      | none => ⟨none, some dateParseFailMsg⟩

/-- `startsWith pat s`: `pat` is an initial segment of `s` (the semantics of
`re.match` on the anchored literal patterns used below). -/
def startsWith : Str → Str → Bool
  | [], _ => true
  | _ :: _, [] => false
  | p :: ps, c :: cs => p == c && startsWith ps cs

/-- Python `s.replace(pat, rep)`: replace all non-overlapping occurrences,
scanning left to right.  Fueled by the input length, which suffices because
each step consumes at least one character. -/
def pyReplaceFuel (pat rep : Str) : Nat → Str → Str
  | 0, s => s
  | _ + 1, [] => []
  | fuel + 1, c :: cs =>
    if startsWith pat (c :: cs) && !pat.isEmpty then
      rep ++ pyReplaceFuel pat rep fuel ((c :: cs).drop pat.length)
    else c :: pyReplaceFuel pat rep fuel cs

/-- Python `s.replace(pat, rep)` (for non-empty `pat`). -/
def pyReplace (pat rep s : Str) : Str := pyReplaceFuel pat rep s.length s

/-- Error message for empty/non-string salary input. -/
def salaryEmptyMsg : Str := pstr "Salary is empty or invalid type"

/-- Stem of the salary parse-failure message (interpolated exception text
omitted). -/
def salaryParseFailMsg : Str := pstr "Failed to parse salary string"

/-- `clean_salary` (src/servir/src/cleaning/parsers/salary_parser.py): guard,
remove the `"S/. "` currency marker, strip, remove comma separators, parse as
a float (modelled exactly as a rational). -/
def clean_salary : PyInput → FieldResult Rat
  | .pyNone => ⟨none, some salaryEmptyMsg⟩
  | .nonStr => ⟨none, some salaryEmptyMsg⟩
  | .str s =>
    if s.isEmpty then ⟨none, some salaryEmptyMsg⟩
    else
      let c1 := pyStripWs (pyReplace (pstr "S/. ") [] s)
      let c2 := pyReplace (pstr ",") [] c1
      match pyParseFloat c2 with
      | some v => ⟨some v, none⟩
      | none => ⟨none, some salaryParseFailMsg⟩

/-- Error message for empty/non-string vacancy input. -/
def vacancyEmptyMsg : Str := pstr "Vacancy count is empty or invalid type"

/-- Stem of the vacancy parse-failure message (interpolated exception text
omitted). -/
def vacancyParseFailMsg : Str := pstr "Failed to parse vacancy count"

/-- `clean_vacancy` (src/servir/src/cleaning/parsers/vacancy_parser.py):
guard, strip, parse as `int`. -/
def clean_vacancy : PyInput → FieldResult Int
  | .pyNone => ⟨none, some vacancyEmptyMsg⟩
  | .nonStr => ⟨none, some vacancyEmptyMsg⟩
  | .str s =>
    if s.isEmpty then ⟨none, some vacancyEmptyMsg⟩
    else
      match pyParseInt (pyStripWs s) with
      | some v => ⟨some v, none⟩
      | none => ⟨none, some vacancyParseFailMsg⟩

/-- `CONTRACT_TYPE_PATTERNS`: ordered `(pattern, standardized)` rules.  Each
source pattern is `^<literal>.*`, so matching is literal-prenex matching.
Taken from src/servir/src/processing/config/contract_config.py (the cleaning
tree's identical config module is not part of the source snapshot). -/
def CONTRACT_TYPE_PATTERNS : List (Str × Str) :=
  [(pstr "D.LEG 1057 - DETERMINADO (NECESIDAD TRANSITORIA)",
    pstr "D.LEG 1057 DETERMINADO NECESIDAD TRANSITORIA"),
   (pstr "D.LEG 1057 - DETERMINADO (SUPLENCIA)",
    pstr "D.LEG 1057 DETERMINADO SUPLENCIA"),
   (pstr "D.LEG 1057 - INDETERMINADO", pstr "D.LEG 1057 INDETERMINADO"),
   (pstr "728", pstr "D.LEG 728"),
   (pstr "276", pstr "D.LEG 276"),
   (pstr "DOCENTES UNIVERSITARIOS", pstr "DOCENTES UNIVERSITARIOS LEY 30220"),
   (pstr "LEY 30220", pstr "DOCENTES UNIVERSITARIOS LEY 30220"),
   (pstr "LEY 30057", pstr "LEY 30057")]

/-- Error message for empty/non-string contract input. -/
def contractEmptyMsg : Str := pstr "Contract type is empty or invalid type"

/-- Stem of the no-pattern-matched message; the source appends the raw
input. -/
def contractNoMatchMsg : Str := pstr "Contract type did not match any pattern: "

/-- `transform_contract_type` (src/servir/src/cleaning/parsers/
contract_parser.py): guard, strip, return the first matching rule's category;
otherwise a failure naming the unmatched raw input. -/
def transform_contract_type : PyInput → FieldResult Str
  | .pyNone => ⟨none, some contractEmptyMsg⟩
  | .nonStr => ⟨none, some contractEmptyMsg⟩
  | .str s =>
    if s.isEmpty then ⟨none, some contractEmptyMsg⟩
    else
      match CONTRACT_TYPE_PATTERNS.find? (fun pr => startsWith pr.1 (pyStripWs s)) with
      | some pr => ⟨some pr.2, none⟩
      | none => ⟨none, some (contractNoMatchMsg ++ s)⟩

/-! ### Job-title cleaning (src/servir/src/processing/parsers/job_title_parser.py) -/

/-- ASCII upper-casing of one character (case folding for the
`re.IGNORECASE` patterns, whose letters are all ASCII). -/
def upperC (c : Char) : Char :=
  if 97 ≤ c.toNat && c.toNat ≤ 122 then Char.ofNat (c.toNat - 32) else c

/-- Case-insensitive prenex test. -/
def startsWithIC : Str → Str → Bool
  | [], _ => true
  | _ :: _, [] => false
  | p :: ps, c :: cs => upperC p == upperC c && startsWithIC ps cs

/-- The quantity-marker alternatives of
`re.sub(r'^(UN/A|UNA|UNAS|UNOS|UN)\s+', '', ..., flags=re.IGNORECASE)`,
in alternation order. -/
def quantAlts : List Str :=
  [pstr "UN/A", pstr "UNA", pstr "UNAS", pstr "UNOS", pstr "UN"]

/-- Step 1 of `clean_job_title`: drop the first alternative that is an
initial segment followed by whitespace, together with the (greedy)
whitespace run after it. -/
def stripQuantity (s : Str) : Str :=
  match quantAlts.find? (fun a =>
      startsWithIC a s && ((s.drop a.length).head?.map isPySpace).getD false) with
  | some a => (s.drop a.length).dropWhile isPySpace
  | none => s

/-- After the digits of a leading-number match: optional `)` and the
whitespace run are consumed too (`\)?\s*`). -/
def dropNumTail (t : Str) : Str :=
  let r1 := (spanDigits t).2
  let r2 := match r1 with
    | ')' :: rr => rr
    | _ => r1
  r2.dropWhile isPySpace

/-- `re.sub(r'^\(?(\d+)\)?\s*', '', s)` (step 2a): anchored at the start.
A lone `(` with no digit after it matches neither with nor without the
optional paren, so the string is returned unchanged in that case. -/
def stripLeadNum (s : Str) : Str :=
  match s with
  | '(' :: r => if (r.head?.map isDigit).getD false then dropNumTail r else s
  | c :: _ => if isDigit c then dropNumTail s else s
  | [] => []

/-- One attempted match of `\s+\(?(\d+)\)?\s+` (step 2b) at the current
position: whitespace run, optional `(`, digits, optional `)`, whitespace
run; returns the rest after the match.  Consuming `(` unconditionally is
equivalent to the regex's backtracking: with no digit after `(` both
alternatives fail. -/
def midNumMatch (s : Str) : Option Str :=
  let (w, r1) := s.span isPySpace
  if w.isEmpty then none
  else
    let r2 := match r1 with
      | '(' :: rr => rr
      | _ => r1
    let (d, r3) := spanDigits r2
    if d.isEmpty then none
    else
      let r4 := match r3 with
        | ')' :: rr => rr
        | _ => r3
      let (w2, r5) := r4.span isPySpace
      if w2.isEmpty then none else some r5

/-- One attempted match of `\s+\(?(\d+)\)?\s*$` (step 2c) at the current
position: as above but the trailing whitespace may be empty and the end of
input must follow. -/
def endNumMatch (s : Str) : Bool :=
  let (w, r1) := s.span isPySpace
  if w.isEmpty then false
  else
    let r2 := match r1 with
      | '(' :: rr => rr
      | _ => r1
    let (d, r3) := spanDigits r2
    if d.isEmpty then false
    else
      let r4 := match r3 with
        | ')' :: rr => rr
        | _ => r3
      (r4.dropWhile isPySpace).isEmpty

/-- `re.sub(r'\s+\(?(\d+)\)?\s*$', '', s)`: every match ends at the end of
input, so the substitution deletes from the leftmost position where the
end-anchored pattern matches. -/
def subEndNum : Str → Str
  | [] => []
  | c :: cs => if endNumMatch (c :: cs) then [] else c :: subEndNum cs

/-- One attempted match of `\s*[(/]([AO])[)]\s*` (step 3a): optional
whitespace, `(` or `/`, `A` or `O`, `)`, optional whitespace (the pattern
has no IGNORECASE flag, so only capital markers match). -/
def genderParenMatch (s : Str) : Option Str :=
  let r1 := s.dropWhile isPySpace
  match r1 with
  | o :: a :: ')' :: r =>
    if (o == '(' || o == '/') && (a == 'A' || a == 'O') then
      some (r.dropWhile isPySpace)
    else none
  | _ => none

/-- One attempted match of `\s*/[AO]\s*` (step 3b). -/
def genderSlashMatch (s : Str) : Option Str :=
  let r1 := s.dropWhile isPySpace
  match r1 with
  | '/' :: a :: r =>
    if a == 'A' || a == 'O' then some (r.dropWhile isPySpace) else none
  | _ => none

/-- Two-character alternatives of `(CM|CD|XC|XL|IX|IV|[IVX])`, in
alternation order, case-insensitively. -/
def romanTwoAlt (a b : Char) : Bool :=
  let p := (upperC a, upperC b)
  p == ('C', 'M') || p == ('C', 'D') || p == ('X', 'C') || p == ('X', 'L') ||
  p == ('I', 'X') || p == ('I', 'V')

/-- The single-character class `[IVX]`, case-insensitively. -/
def romanOneAlt (a : Char) : Bool :=
  upperC a == 'I' || upperC a == 'V' || upperC a == 'X'

/-- Greedy repetition of the Roman-numeral alternation: at each step the
first alternative that matches (two-character alternatives before the
single-character class) is consumed; returns the number of characters
consumed and the rest. -/
def romanChomp : Str → Nat × Str
  | a :: b :: r =>
    if romanTwoAlt a b then
      let (n, rr) := romanChomp r
      (n + 2, rr)
    else if romanOneAlt a then
      let (n, rr) := romanChomp (b :: r)
      (n + 1, rr)
    else (0, a :: b :: r)
  | [a] => if romanOneAlt a then (1, []) else (0, [a])
  | [] => (0, [])

/-- The trailing class `[\s–\-]` of the Roman-numeral pattern. -/
def isRomanTail (c : Char) : Bool := isPySpace c || c == '–' || c == '-'

/-- One attempted match of `\s+(CM|CD|XC|XL|IX|IV|[IVX])+[\s–\-]*`
(step 4, IGNORECASE): whitespace run, at least one Roman alternation step,
then the trailing class run. -/
def romanMatch (s : Str) : Option Str :=
  let (w, r1) := s.span isPySpace
  if w.isEmpty then none
  else
    let (n, r2) := romanChomp r1
    if n == 0 then none else some (r2.dropWhile isRomanTail)

/-- Global `re.sub` engine: scan left to right; where the matcher succeeds,
emit the replacement and continue after the match, else keep the character.
Fueled by the input length, which suffices because every matcher used here
consumes at least one character. -/
def pySubFuel (m : Str → Option Str) (rep : Str) : Nat → Str → Str
  | 0, s => s
  | _ + 1, [] => []
  | fuel + 1, c :: cs =>
    match m (c :: cs) with
    | some rest => rep ++ pySubFuel m rep fuel rest
    | none => c :: pySubFuel m rep fuel cs

/-- Global `re.sub` with the given single-position matcher. -/
def pySub (m : Str → Option Str) (rep s : Str) : Str := pySubFuel m rep s.length s

/-- `clean_job_title` (src/servir/src/processing/parsers/job_title_parser.py):
strip quantity markers, position numbers, gender markers and Roman numerals,
then apply the generic cleaner.  The module imports `clean_text` from the
processing tree's text parser; the generic cleaner of
src/servir/src/cleaning/parsers/text_parser.py is the repository's
definition of that name and is used here. -/
def clean_job_title : PyInput → Option Str
  | .pyNone => none
  | .nonStr => none
  | .str s =>
    if s.isEmpty then none
    else
      let c1 := stripQuantity s
      let c2 := stripLeadNum c1
      let c3 := pySub midNumMatch [' '] c2
      let c4 := subEndNum c3
      let c5 := pySub genderParenMatch [' '] c4
      let c6 := pySub genderSlashMatch [' '] c5
      let c7 := pyCollapseWs c6
      let c8 := pySub romanMatch [' '] c7
      let c9 := pyCollapseWs c8
      match clean_text (.str c9) with
      | none => none
      | some r => if r == noInfo then none else some r

/-! ### Extraction with retry (src/servir/src/collecting/pipeline/job_processor.py) -/

/-- The loop body of `extract_job_with_retry`: iterate over the attempt
indices (`range(max_retries + 1)`), scraping each; an empty scrape
continues; a valid record returns immediately; an invalid record returns on
the last attempt and otherwise retries.  The second component counts scrape
invocations. -/
def extract_go (scrape : Nat → Option JobData) (maxRetries : Nat) :
    List Nat → Nat → (Option JobData × Bool × List Field) × Nat
  | [], calls => ((none, false, []), calls)
  | a :: rest, calls =>
    match scrape a with
    | none => extract_go scrape maxRetries rest (calls + 1)
    | some jd =>
      if (validate_job_data (some jd)).is_valid then ((some jd, true, []), calls + 1)
      else if a == maxRetries then
        ((some jd, false, (validate_job_data (some jd)).missing_fields), calls + 1)
      else extract_go scrape maxRetries rest (calls + 1)

/-- `extract_job_with_retry` at its default `max_retries=1` (the value the
orchestrator uses), over an abstract page source
`scrape : attempt index → extraction result`. -/
def extract_job_with_retry (scrape : Nat → Option JobData) :
    (Option JobData × Bool × List Field) × Nat :=
  extract_go scrape 1 (List.range 2) 0

/-! ### Collection orchestrator (src/servir/src/pipeline/orchestrator.py) -/

/-- `CONSECUTIVE_DUPLICATES_THRESHOLD`
(src/servir/src/extracting/config/config.py, line 78). -/
def CONSECUTIVE_DUPLICATES_THRESHOLD : Nat := 10

/-- Messages recorded in the run's error log. -/
inductive ErrMsg where
  | extractionNone (page idx : Nat)
  | missingId (page idx : Nat)
  | dbError (msg : Str)
deriving DecidableEq

/-- `PipelineStats` (src/servir/src/pipeline/statistics.py): run counters,
the consecutive-duplicate counter, and the error log (timestamps are not
modelled). -/
structure PipelineStats where
  pages_processed : Nat := 0
  jobs_encountered : Nat := 0
  jobs_saved_complete : Nat := 0
  jobs_saved_incomplete : Nat := 0
  jobs_skipped_duplicate : Nat := 0
  jobs_failed : Nat := 0
  consecutive_duplicates : Nat := 0
  errors : List ErrMsg := []
deriving DecidableEq

/-- `record_job_encountered`. -/
def record_job_encountered (s : PipelineStats) : PipelineStats :=
  { s with jobs_encountered := s.jobs_encountered + 1 }

/-- `record_job_saved_complete`: increments the counter and resets the
consecutive-duplicate counter. -/
def record_job_saved_complete (s : PipelineStats) : PipelineStats :=
  { s with jobs_saved_complete := s.jobs_saved_complete + 1, consecutive_duplicates := 0 }

/-- `record_job_saved_incomplete`: increments the counter and resets the
consecutive-duplicate counter. -/
def record_job_saved_incomplete (s : PipelineStats) : PipelineStats :=
  { s with jobs_saved_incomplete := s.jobs_saved_incomplete + 1, consecutive_duplicates := 0 }

/-- `record_duplicate`: increments both the duplicate counter and the
consecutive-duplicate counter. -/
def record_duplicate (s : PipelineStats) : PipelineStats :=
  { s with jobs_skipped_duplicate := s.jobs_skipped_duplicate + 1,
           consecutive_duplicates := s.consecutive_duplicates + 1 }

/-- `record_failed`. -/
def record_failed (s : PipelineStats) : PipelineStats :=
  { s with jobs_failed := s.jobs_failed + 1 }

/-- `record_error`. -/
def record_error (s : PipelineStats) (m : ErrMsg) : PipelineStats :=
  { s with errors := s.errors ++ [m] }

/-- `record_page_processed`. -/
def record_page_processed (s : PipelineStats) : PipelineStats :=
  { s with pages_processed := s.pages_processed + 1 }

/-- The persistent store: the posting ids present in the complete table
(`job_postings`) and in the incomplete table (`job_postings_incomplete`).
Only the keys matter for the control flow; the record payloads are stored
but never read back by the orchestrator. -/
structure Store where
  complete : List Str
  incomplete : List Str
deriving DecidableEq

/-- Modelled from the spec: `job_exists` is imported from
`servir.src.database.queries`, a module absent from the source snapshot.
Per the spec ("Identifier already persisted (complete or incomplete
table)"), it checks both destinations. -/
def job_exists (st : Store) (pid : Str) : Bool :=
  st.complete.contains pid || st.incomplete.contains pid

/-- `insert_job_offer` (src/servir/src/collecting/database/operations.py):
fails on a missing posting id, fails with an IntegrityError message when the
id is already in the complete table (uniqueness constraint), otherwise
inserts.  Success messages are not consumed by the orchestrator and are
modelled as empty. -/
def insert_job_offer (st : Store) (d : JobData) : (Bool × Str) × Store :=
  match d .posting_unique_id with
  | none => ((false, pstr "Missing required field: posting_unique_id"), st)
  | some pid =>
    if pid.isEmpty then ((false, pstr "Missing required field: posting_unique_id"), st)
    else if st.complete.contains pid then
      ((false, pstr "Job already exists in database"), st)
    else ((true, []), { st with complete := st.complete ++ [pid] })

/-- `insert_job_offer_incomplete`: as above, against the incomplete table's
own uniqueness constraint only. -/
def insert_job_offer_incomplete (st : Store) (d : JobData) (_missing : List Field) :
    (Bool × Str) × Store :=
  match d .posting_unique_id with
  | none => ((false, pstr "Missing required field: posting_unique_id"), st)
  | some pid =>
    if pid.isEmpty then ((false, pstr "Missing required field: posting_unique_id"), st)
    else if st.incomplete.contains pid then
      ((false, pstr "Job already exists in incomplete table"), st)
    else ((true, []), { st with incomplete := st.incomplete ++ [pid] })

/-- `decide_job_action`'s outcome (the `action` field with its payload). -/
inductive Decision where
  | failed (msg : ErrMsg)
  | saveComplete (posting_id : Str) (data : JobData)
  | saveIncomplete (posting_id : Str) (data : JobData) (missing : List Field)

/-- `decide_job_action` (src/servir/src/collecting/pipeline/job_processor.py):
no data → failed; falsy posting id (`None` or empty) → failed; valid →
ready to save complete; otherwise ready to save incomplete with the
recomputed missing fields. -/
def decide_job_action (jd : Option JobData) (is_valid : Bool) (page idx : Nat) : Decision :=
  match jd with
  | none => .failed (.extractionNone page idx)
  | some d =>
    match d .posting_unique_id with
    | none => .failed (.missingId page idx)
    | some pid =>
      if pid.isEmpty then .failed (.missingId page idx)
      else if is_valid then .saveComplete pid d
      else .saveIncomplete pid d (validate_job_data (some d)).missing_fields

/-- The orchestrator's mutable state: statistics and the record store. -/
structure RunState where
  stats : PipelineStats
  store : Store
deriving DecidableEq

/-- Result of one processing step: either the run continues, or it
early-stopped (the source `return stats` out of the loop). -/
inductive StepRes where
  | cont (st : RunState)
  | stopped (st : RunState)
deriving DecidableEq

/-- One item from the page source, as delivered by extract-with-retry to
the orchestrator loop: the extracted data and its validity flag. -/
abbrev Item := Option JobData × Bool

/-- The per-item block of `collect_all_servir_jobs` (lines 99–164 of
src/servir/src/pipeline/orchestrator.py): record the encounter, decide,
then execute the decision — failed items are logged; complete items are
checked against the store (a duplicate increments the counter and stops the
run when the counter reaches the threshold); unseen complete items are
inserted; incomplete items are inserted into the incomplete table with no
duplicate check.  The threshold `TH` is the configured
`CONSECUTIVE_DUPLICATES_THRESHOLD` (default `10`). -/
def process_item (TH : Nat) (page idx : Nat) (item : Item) (st : RunState) : StepRes :=
  let stats0 := record_job_encountered st.stats
  match decide_job_action item.1 item.2 page idx with
  | .failed msg =>
    .cont ⟨record_error (record_failed stats0) msg, st.store⟩
  | .saveComplete pid d =>
    if job_exists st.store pid then
      let stats1 := record_duplicate stats0
      if TH ≤ stats1.consecutive_duplicates then .stopped ⟨stats1, st.store⟩
      else .cont ⟨stats1, st.store⟩
    else
      let r := insert_job_offer st.store d
      if r.1.1 then .cont ⟨record_job_saved_complete stats0, r.2⟩
      else .cont ⟨record_error (record_failed stats0) (.dbError r.1.2), r.2⟩
  | .saveIncomplete _pid d missing =>
    let r := insert_job_offer_incomplete st.store d missing
    if r.1.1 then .cont ⟨record_job_saved_incomplete stats0, r.2⟩
    else .cont ⟨record_error (record_failed stats0) (.dbError r.1.2), r.2⟩

/-- The inner item loop of one page (`for job_idx in job_indices`): an
early stop abandons the remaining items of the page. -/
def process_items (TH page : Nat) : List Item → Nat → RunState → StepRes
  | [], _, st => .cont st
  | it :: rest, idx, st =>
    match process_item TH page idx it st with
    | .cont st1 => process_items TH page rest (idx + 1) st1
    | .stopped st1 => .stopped st1

/-- The page loop (`while current_page <= total_pages`), over an
environment modelled as a fixed list of pages: the page-count re-check
returns the same total and navigation always succeeds, so the loop visits
the pages in order; `record_page_processed` runs after a page's items
unless the run stopped early inside the page. -/
def process_pages (TH : Nat) : List (List Item) → Nat → RunState → StepRes
  | [], _, st => .cont st
  | pg :: rest, pageNo, st =>
    match process_items TH pageNo pg 0 st with
    | .stopped st1 => .stopped st1
    | .cont st1 => process_pages TH rest (pageNo + 1) ⟨record_page_processed st1.stats, st1.store⟩

/-- A full collection run of `collect_all_servir_jobs` over a simulated
listing, starting from fresh statistics and the given store. -/
def collect_all_servir_jobs (TH : Nat) (pages : List (List Item)) (store0 : Store) : StepRes :=
  process_pages TH pages 1 ⟨{}, store0⟩

/-- The statistics of a step result (the orchestrator returns `stats` on
both exits). -/
def StepRes.stats : StepRes → PipelineStats
  | .cont st => st.stats
  | .stopped st => st.stats

/-- The store left behind by a step result. -/
def StepRes.store : StepRes → Store
  | .cont st => st.store
  | .stopped st => st.store

/-! ### Title-classification fusion (src/debug.py, module-level loop) -/

/-- One ranked candidate produced by a matcher's `match_title`. -/
structure Cand where
  codigo : Str
  descripcion : Str
  confidence : Nat
deriving DecidableEq

/-- Python `sorted(l, key=key, reverse=True)`: a stable descending sort.
`List.insertionSort` with this relation is stable in the same sense. -/
def sortDescBy (key : α → Nat) (l : List α) : List α :=
  l.insertionSort (fun a b => key b ≤ key a)

/-- `match_title` of both matchers
(src/servir/src/transforming/transformers/job_title_transformer/
job_title_fuzzy_matcher.py and job_title_semantic_matcher.py): score every
taxonomy entry (in taxonomy order), sort by confidence descending (stable),
and take the top `topK`.  Scores are modelled as naturals on the 0–100
scale, under which the default threshold-0 filter keeps every entry, as in
the source; rank numbers are not consumed by the fusion loop and are
omitted. -/
def match_title (score : Str → Str → Nat) (tax : List (Str × Str)) (topK : Nat) : List Cand :=
  (sortDescBy (fun c => c.confidence) (tax.map fun cd => ⟨cd.1, cd.2, score cd.1 cd.2⟩)).take topK

/-- One entry of the fusion loop's `candidates` dict. -/
structure FusedCand where
  codigo : Str
  descripcion : Str
  semantic_confidence : Nat
  fuzzy_confidence : Nat
  best_confidence : Nat
deriving DecidableEq

/-- Python dict assignment `candidates[codigo] = c` on an insertion-ordered
dict: replace in place if the key exists, else append. -/
def dictUpsert (l : List FusedCand) (c : FusedCand) : List FusedCand :=
  if l.any (fun x => x.codigo == c.codigo) then
    l.map (fun x => if x.codigo == c.codigo then c else x)
  else l ++ [c]

/-- `next((m for m in matches if m['codigo'] == codigo), None)` followed by
`m['confidence'] if m else 0`. -/
def lookupConf (ms : List Cand) (code : Str) : Nat :=
  match ms.find? (fun m => m.codigo == code) with
  | some m => m.confidence
  | none => 0

/-- The fusion loop of src/debug.py (lines 53–118) for one title, with the
two matchers abstracted by their score functions: take the semantic top-5,
score each with the fuzzy ranker (looked up in the fuzzy top-999) and
record `best = max(semantic, fuzzy)`; then take the fuzzy top-5 and add the
codes not already present, scored with the semantic ranker (looked up in
the semantic top-999); finally re-rank by best score (stable descending)
and keep the top 3. -/
def fuse_top3 (tax : List (Str × Str)) (sem fuz : Str → Str → Nat) : List FusedCand :=
  let semantic_matches := match_title sem tax 5
  let fuzzy_all := match_title fuz tax 999
  let step2 := semantic_matches.foldl (fun acc m =>
    dictUpsert acc ⟨m.codigo, m.descripcion, m.confidence, lookupConf fuzzy_all m.codigo,
      max m.confidence (lookupConf fuzzy_all m.codigo)⟩) []
  let fuzzy_matches := match_title fuz tax 5
  let semantic_all := match_title sem tax 999
  let step4 := fuzzy_matches.foldl (fun acc m =>
    if acc.any (fun x => x.codigo == m.codigo) then acc
    else acc ++ [⟨m.codigo, m.descripcion, lookupConf semantic_all m.codigo, m.confidence,
      max (lookupConf semantic_all m.codigo) m.confidence⟩]) step2
  (sortDescBy (fun c => c.best_confidence) step4).take 3

/-! ### Concrete fixtures used by the theorems -/

/-- A fully populated record with the given posting id (every other field
carries a non-empty string). -/
def scenarioJob (pid : Str) : JobData := fun f =>
  match f with
  | .posting_unique_id => some pid
  | _ => some (pstr "x")

/-- The simulated 3-page listing of the spec's orchestrator test: two
complete, distinct items per page, page 3 repeating page 1's identifiers. -/
def scenarioPages : List (List Item) :=
  [[(some (scenarioJob (pstr "A")), true), (some (scenarioJob (pstr "B")), true)],
   [(some (scenarioJob (pstr "C")), true), (some (scenarioJob (pstr "D")), true)],
   [(some (scenarioJob (pstr "A")), true), (some (scenarioJob (pstr "B")), true)]]

/-- The identifiers encountered before the simulated run stops (pages 1 and
2 in full, then the two repeats of page 3). -/
def scenarioIds : List Str :=
  [pstr "A", pstr "B", pstr "C", pstr "D", pstr "A", pstr "B"]

/-- A record whose posting id is present but is the empty string, all other
fields non-empty. -/
def emptyIdRecord : JobData := fun f =>
  match f with
  | .posting_unique_id => some []
  | _ => some (pstr "x")

/-- A record missing its `knowledge` field. -/
def missingKnowledgeRecord : JobData := fun f =>
  match f with
  | .knowledge => none
  | .posting_unique_id => some (pstr "A")
  | _ => some (pstr "x")

/-- A two-entry taxonomy for the fusion tie-break analysis. -/
def c7tax : List (Str × Str) := [(pstr "1", pstr "D1"), (pstr "2", pstr "D2")]

/-- Semantic scores for `c7tax`: code 1 scores 70, code 2 scores 80. -/
def c7sem (c _d : Str) : Nat := if c = pstr "1" then 70 else 80

/-- Lexical scores for `c7tax`: code 1 scores 80, code 2 scores 10, so both
codes end with combined score 80. -/
def c7fuz (c _d : Str) : Nat := if c = pstr "1" then 80 else 10

/-- A page source whose every attempt yields the complete record `A`. -/
def alwaysCompleteScrape : Nat → Option JobData := fun _ => some (scenarioJob (pstr "A"))

/-! ## Theorems -/

/-- C9: job-title cleaning strips quantity markers, gender markers and
Roman-numeral seniority markers: `"UNA ASISTENTE (A) II"` cleans to
`"ASISTENTE"`, `"PROFESIONAL I – REGISTRADOR"` cleans to
`"PROFESIONAL REGISTRADOR"`, and a trailing `"IV"` is stripped wholly
(never as `"I"` leaving a `"V"`). -/
theorem clean_job_title_strips_markers :
    clean_job_title (.str (pstr "UNA ASISTENTE (A) II")) = some (pstr "ASISTENTE") ∧
    clean_job_title (.str (pstr "PROFESIONAL I – REGISTRADOR")) =
      some (pstr "PROFESIONAL REGISTRADOR") ∧
    clean_job_title (.str (pstr "ANALISTA IV")) = some (pstr "ANALISTA") := by
  exact ⟨by decide, by decide, by decide⟩

/-- C10: `clean_text` never returns the empty string: the result is `none`
(falsy or non-string input), the `'NO INFO'` sentinel, or a non-empty
cleaned string. -/
theorem clean_text_never_empty (x : PyInput) :
    clean_text x = none ∨ clean_text x = some noInfo ∨
      ∃ r, clean_text x = some r ∧ r ≠ [] := by
  cases x with
  | pyNone => exact Or.inl rfl
  | nonStr => exact Or.inl rfl
  | str s =>
    by_cases h : s.isEmpty
    · exact Or.inl (by simp [clean_text, h])
    · simp only [clean_text, h, Bool.false_eq_true, if_false]
      split
      · exact Or.inr (Or.inl rfl)
      · rename_i h2
        exact Or.inr (Or.inr ⟨_, rfl, by simpa [List.isEmpty_iff] using h2⟩)

/-- C6: the required idempotence of the normalizers fails on `clean_text`:
bullet stripping runs after quote stripping, so cleaning `- "A` yields
`"A`, and cleaning that output again yields `A`, a different string. -/
theorem clean_text_idempotence_fails :
    clean_text (.str (pstr "- \"A")) = some (pstr "\"A") ∧
    clean_text (.str (pstr "\"A")) = some (pstr "A") ∧
    pstr "A" ≠ pstr "\"A" := by
  exact ⟨by decide, by decide, by decide⟩

/-- C8: each field normalizer (salary, vacancy count, date, contract code)
maps any non-string or empty input to an absent value with its
"... is empty or invalid type" reason, and on every input returns either a
value with no error or no value with an error — failure is always a
returned value, never an exception. -/
theorem normalizers_total_with_uniform_guard (x : PyInput) :
    (x.isEmptyOrNotStr = true →
      clean_salary x = ⟨none, some salaryEmptyMsg⟩ ∧
      clean_vacancy x = ⟨none, some vacancyEmptyMsg⟩ ∧
      clean_date x = ⟨none, some dateEmptyMsg⟩ ∧
      transform_contract_type x = ⟨none, some contractEmptyMsg⟩) ∧
    ((∃ v, clean_salary x = ⟨some v, none⟩) ∨ ∃ e, clean_salary x = ⟨none, some e⟩) ∧
    ((∃ v, clean_vacancy x = ⟨some v, none⟩) ∨ ∃ e, clean_vacancy x = ⟨none, some e⟩) ∧
    ((∃ v, clean_date x = ⟨some v, none⟩) ∨ ∃ e, clean_date x = ⟨none, some e⟩) ∧
    ((∃ v, transform_contract_type x = ⟨some v, none⟩) ∨
      ∃ e, transform_contract_type x = ⟨none, some e⟩) := by
  refine ⟨?_, ?_, ?_, ?_, ?_⟩
  · intro h
    cases x with
    | pyNone => exact ⟨rfl, rfl, rfl, rfl⟩
    | nonStr => exact ⟨rfl, rfl, rfl, rfl⟩
    | str s =>
      simp only [PyInput.isEmptyOrNotStr] at h
      exact ⟨by simp [clean_salary, h], by simp [clean_vacancy, h],
             by simp [clean_date, h], by simp [transform_contract_type, h]⟩
  · cases x with
    | pyNone => exact Or.inr ⟨_, rfl⟩
    | nonStr => exact Or.inr ⟨_, rfl⟩
    | str s =>
      simp only [clean_salary]
      split
      · exact Or.inr ⟨_, rfl⟩
      · split
        · exact Or.inl ⟨_, rfl⟩
        · exact Or.inr ⟨_, rfl⟩
  · cases x with
    | pyNone => exact Or.inr ⟨_, rfl⟩
    | nonStr => exact Or.inr ⟨_, rfl⟩
    | str s =>
      simp only [clean_vacancy]
      split
      · exact Or.inr ⟨_, rfl⟩
      · split
        · exact Or.inl ⟨_, rfl⟩
        · exact Or.inr ⟨_, rfl⟩
  · cases x with
    | pyNone => exact Or.inr ⟨_, rfl⟩
    | nonStr => exact Or.inr ⟨_, rfl⟩
    | str s =>
      simp only [clean_date]
      split
      · exact Or.inr ⟨_, rfl⟩
      · split
        · split
          · exact Or.inl ⟨_, rfl⟩
          · exact Or.inr ⟨_, rfl⟩
        · exact Or.inr ⟨_, rfl⟩
  · cases x with
    | pyNone => exact Or.inr ⟨_, rfl⟩
    | nonStr => exact Or.inr ⟨_, rfl⟩
    | str s =>
      simp only [transform_contract_type]
      split
      · exact Or.inr ⟨_, rfl⟩
      · split
        · exact Or.inl ⟨_, rfl⟩
        · exact Or.inr ⟨_, rfl⟩

/-- C8 witness: the guard conclusion at the concrete input `None`. -/
theorem normalizers_total_with_uniform_guard_witness :
    clean_salary .pyNone = ⟨none, some salaryEmptyMsg⟩ ∧
    clean_vacancy .pyNone = ⟨none, some vacancyEmptyMsg⟩ ∧
    clean_date .pyNone = ⟨none, some dateEmptyMsg⟩ ∧
    transform_contract_type .pyNone = ⟨none, some contractEmptyMsg⟩ :=
  (normalizers_total_with_uniform_guard .pyNone).1 rfl

/-- C4 counterexample: a record whose posting id is present but empty is
judged complete with no missing fields, although the claim requires an
empty required field to be reported missing. -/
theorem validator_empty_string_counterexample :
    emptyIdRecord .posting_unique_id = some [] ∧
    (validate_job_data (some emptyIdRecord)).is_valid = true ∧
    (validate_job_data (some emptyIdRecord)).missing_fields = [] := by
  exact ⟨rfl, by decide, by decide⟩

/-- C4 (amended): the validator judges presence only — `is_complete` is
true exactly when every required field's value is not `None`, and the
missing fields are exactly the required fields whose value is `None`; an
absent record is incomplete with every field missing. -/
theorem validate_job_data_presence (jd : JobData) :
    ((validate_job_data (some jd)).is_valid = true ↔
      ∀ f ∈ REQUIRED_FIELDS, (jd f).isSome = true) ∧
    (validate_job_data (some jd)).missing_fields =
      REQUIRED_FIELDS.filter (fun f => (jd f).isNone) ∧
    (validate_job_data none).is_valid = false ∧
    (validate_job_data none).missing_fields = REQUIRED_FIELDS := by
  refine ⟨?_, rfl, rfl, rfl⟩
  simp [validate_job_data, is_data_complete, List.all_eq_true]

/-- C4 witness: the amended characterization applied to a concrete complete
record. -/
theorem validate_job_data_presence_witness :
    (validate_job_data (some (scenarioJob (pstr "A")))).is_valid = true :=
  (validate_job_data_presence (scenarioJob (pstr "A"))).1.mpr (by decide)

/-- C3: `extract_job_with_retry` scrapes at most twice; a first attempt
that validates is returned after one scrape with no retry; otherwise (empty
or incomplete first attempt) exactly one retry happens and the second
attempt's outcome is accepted as is — a complete record, an incomplete
record with its missing fields, or nothing at all. -/
theorem extract_job_with_retry_spec (scrape : Nat → Option JobData) :
    (extract_job_with_retry scrape).2 ≤ 2 ∧
    (∀ jd, scrape 0 = some jd → (validate_job_data (some jd)).is_valid = true →
      extract_job_with_retry scrape = ((some jd, true, []), 1)) ∧
    ((scrape 0 = none ∨
        ∃ jd, scrape 0 = some jd ∧ (validate_job_data (some jd)).is_valid = false) →
      (extract_job_with_retry scrape).2 = 2 ∧
      (scrape 1 = none → (extract_job_with_retry scrape).1 = (none, false, [])) ∧
      (∀ jd', scrape 1 = some jd' →
        (extract_job_with_retry scrape).1 =
          (some jd', (validate_job_data (some jd')).is_valid,
            if (validate_job_data (some jd')).is_valid then []
            else (validate_job_data (some jd')).missing_fields))) := by
  have hrange : List.range 2 = [0, 1] := by decide
  refine ⟨?_, ?_, ?_⟩
  · unfold extract_job_with_retry
    rw [hrange]
    cases h0 : scrape 0 with
    | none =>
      cases h1 : scrape 1 with
      | none => simp [extract_go, h0, h1]
      | some jd =>
        by_cases hv : (validate_job_data (some jd)).is_valid = true
        · simp [extract_go, h0, h1, hv]
        · simp only [Bool.not_eq_true] at hv
          simp [extract_go, h0, h1, hv]
    | some jd =>
      by_cases hv : (validate_job_data (some jd)).is_valid = true
      · simp [extract_go, h0, hv]
      · simp only [Bool.not_eq_true] at hv
        cases h1 : scrape 1 with
        | none => simp [extract_go, h0, h1, hv]
        | some jd' =>
          by_cases hv' : (validate_job_data (some jd')).is_valid = true
          · simp [extract_go, h0, h1, hv, hv']
          · simp only [Bool.not_eq_true] at hv'
            simp [extract_go, h0, h1, hv, hv']
  · intro jd h0 hv
    simp [extract_job_with_retry, hrange, extract_go, h0, hv]
  · intro hfirst
    have step : ∀ P : (Option JobData × Bool × List Field) × Nat → Prop,
        P (extract_go scrape 1 [1] 1) →
        P (extract_job_with_retry scrape) := by
      intro P hP
      rcases hfirst with h0 | ⟨jd, h0, hv⟩
      · simpa [extract_job_with_retry, hrange, extract_go, h0] using hP
      · simpa [extract_job_with_retry, hrange, extract_go, h0, hv] using hP
    refine ⟨?_, ?_, ?_⟩
    · refine step (fun r => r.2 = 2) ?_
      cases h1 : scrape 1 with
      | none => simp [extract_go, h1]
      | some jd' =>
        by_cases hv' : (validate_job_data (some jd')).is_valid = true
        · simp [extract_go, h1, hv']
        · simp only [Bool.not_eq_true] at hv'
          simp [extract_go, h1, hv']
    · intro h1
      refine step (fun r => r.1 = (none, false, [])) ?_
      simp [extract_go, h1]
    · intro jd' h1
      refine step (fun r => r.1 = (some jd', (validate_job_data (some jd')).is_valid,
        if (validate_job_data (some jd')).is_valid then []
        else (validate_job_data (some jd')).missing_fields)) ?_
      cases hv : (validate_job_data (some jd')).is_valid <;>
        simp [extract_go, h1, hv]

/-- C3 witness: a source whose first attempt is complete is accepted after
a single scrape. -/
theorem extract_job_with_retry_spec_witness :
    extract_job_with_retry alwaysCompleteScrape =
      ((some (scenarioJob (pstr "A")), true, []), 1) :=
  (extract_job_with_retry_spec alwaysCompleteScrape).2.1 _ rfl (by decide)

/-- C1: whenever the run records a duplicate that brings the consecutive-
duplicate counter to the configured threshold, the run stops at that item;
a stopped item loop ignores every remaining item and a stopped page loop
ignores every remaining page; and on the simulated 3-page listing whose
page 3 repeats page 1's identifiers, with threshold 2, the run stops right
after the 2nd repeated identifier (6 items encountered, page 3 not counted
as processed) with `SavedComplete = 4`, the number of distinct identifiers
encountered. -/
theorem orchestrator_early_stop :
    (∀ TH page xs ys idx st s, process_items TH page xs idx st = .stopped s →
      process_items TH page (xs ++ ys) idx st = .stopped s) ∧
    (∀ TH ps qs n st s, process_pages TH ps n st = .stopped s →
      process_pages TH (ps ++ qs) n st = .stopped s) ∧
    (∀ TH page idx d pid st, d .posting_unique_id = some pid → pid ≠ [] →
      job_exists st.store pid = true →
      TH ≤ st.stats.consecutive_duplicates + 1 →
      process_item TH page idx (some d, true) st =
        .stopped ⟨record_duplicate (record_job_encountered st.stats), st.store⟩) ∧
    (collect_all_servir_jobs 2 scenarioPages ⟨[], []⟩ =
      .stopped ⟨{ pages_processed := 2, jobs_encountered := 6, jobs_saved_complete := 4,
                  jobs_saved_incomplete := 0, jobs_skipped_duplicate := 2, jobs_failed := 0,
                  consecutive_duplicates := 2, errors := [] },
                ⟨[pstr "A", pstr "B", pstr "C", pstr "D"], []⟩⟩) ∧
    scenarioIds.dedup.length = 4 := by
  refine ⟨?_, ?_, ?_, by decide, by decide⟩
  · intro TH page xs
    induction xs with
    | nil =>
      intro ys idx st s h
      simp [process_items] at h
    | cons it rest ih =>
      intro ys idx st s h
      simp only [process_items, List.cons_append] at h ⊢
      cases hit : process_item TH page idx it st with
      | cont st1 =>
        rw [hit] at h
        exact ih ys (idx + 1) st1 s h
      | stopped st1 =>
        rw [hit] at h
        exact h
  · intro TH ps
    induction ps with
    | nil =>
      intro qs n st s h
      simp [process_pages] at h
    | cons pg rest ih =>
      intro qs n st s h
      simp only [process_pages, List.cons_append] at h ⊢
      cases hpg : process_items TH n pg 0 st with
      | cont st1 =>
        rw [hpg] at h
        exact ih qs (n + 1) _ s h
      | stopped st1 =>
        rw [hpg] at h
        exact h
  · intro TH page idx d pid st hpid hne hex hth
    have hempty : pid.isEmpty = false := by
      cases pid with
      | nil => exact absurd rfl hne
      | cons a l => rfl
    simp [process_item, decide_job_action, hpid, hempty, hex,
      record_duplicate, record_job_encountered, hth]

/-- C1 witness: the immediate-stop conclusion at a concrete duplicate item,
and the item-loop propagation from it. -/
theorem orchestrator_early_stop_witness :
    process_item 1 1 0 (some (scenarioJob (pstr "A")), true)
        ⟨{}, ⟨[pstr "A"], []⟩⟩ =
      .stopped ⟨record_duplicate (record_job_encountered {}), ⟨[pstr "A"], []⟩⟩ ∧
    process_items 1 1 [(some (scenarioJob (pstr "A")), true), (some (scenarioJob (pstr "B")), true)]
        0 ⟨{}, ⟨[pstr "A"], []⟩⟩ =
      .stopped ⟨record_duplicate (record_job_encountered {}), ⟨[pstr "A"], []⟩⟩ := by
  have h1 := orchestrator_early_stop.2.2.1 1 1 0 (scenarioJob (pstr "A")) (pstr "A")
    ⟨{}, ⟨[pstr "A"], []⟩⟩ rfl (by decide) (by decide) (by decide)
  have h2 := orchestrator_early_stop.1 1 1
    [(some (scenarioJob (pstr "A")), true)] [(some (scenarioJob (pstr "B")), true)]
    0 ⟨{}, ⟨[pstr "A"], []⟩⟩ _ (by simpa [process_items] using h1)
  exact ⟨h1, h2⟩

/-- C2 counterexample: an item extracted as incomplete, whose posting id
`X` is already persisted in the complete store, is not treated as a
duplicate: a new record is written to the incomplete store, the outcome is
a successful incomplete save, and the consecutive-duplicate counter is
reset to 0 instead of incremented. -/
theorem duplicate_rule_counterexample :
    job_exists ⟨[pstr "X"], []⟩ (pstr "X") = true ∧
    process_item 10 1 0 (some (scenarioJob (pstr "X")), false)
        ⟨{ consecutive_duplicates := 1 }, ⟨[pstr "X"], []⟩⟩ =
      .cont ⟨{ jobs_encountered := 1, jobs_saved_incomplete := 1, consecutive_duplicates := 0 },
             ⟨[pstr "X"], [pstr "X"]⟩⟩ := by
  exact ⟨by decide, by decide⟩

/-- C2 (amended): only for items extracted as complete does an already
persisted posting identifier (in either store) yield `Duplicate`: nothing
is written and the consecutive-duplicate counter grows by exactly one;
and every successful save — complete or incomplete — resets that counter
to zero.  (Items extracted as incomplete are inserted without any
duplicate check.) -/
theorem duplicate_rule_amended :
    (∀ TH page idx d pid st, d .posting_unique_id = some pid → pid ≠ [] →
      job_exists st.store pid = true →
      (process_item TH page idx (some d, true) st).store = st.store ∧
      (process_item TH page idx (some d, true) st).stats.jobs_skipped_duplicate =
        st.stats.jobs_skipped_duplicate + 1 ∧
      (process_item TH page idx (some d, true) st).stats.consecutive_duplicates =
        st.stats.consecutive_duplicates + 1 ∧
      (process_item TH page idx (some d, true) st).stats.jobs_saved_complete =
        st.stats.jobs_saved_complete ∧
      (process_item TH page idx (some d, true) st).stats.jobs_saved_incomplete =
        st.stats.jobs_saved_incomplete) ∧
    (∀ TH page idx it st st1, process_item TH page idx it st = .cont st1 →
      (st1.stats.jobs_saved_complete = st.stats.jobs_saved_complete + 1 ∨
        st1.stats.jobs_saved_incomplete = st.stats.jobs_saved_incomplete + 1) →
      st1.stats.consecutive_duplicates = 0) := by
  constructor
  · intro TH page idx d pid st hpid hne hex
    have hempty : pid.isEmpty = false := by
      cases pid with
      | nil => exact absurd rfl hne
      | cons a l => rfl
    by_cases hth : TH ≤ st.stats.consecutive_duplicates + 1 <;>
      simp [process_item, decide_job_action, hpid, hempty, hex, hth, StepRes.store,
        StepRes.stats, record_duplicate, record_job_encountered]
  · intro TH page idx it st st1 hrun hsave
    rcases it with ⟨jd, valid⟩
    simp only [process_item] at hrun
    cases hdec : decide_job_action jd valid page idx with
    | failed msg =>
      rw [hdec] at hrun
      cases hrun
      rcases hsave with h | h <;>
        simp [record_error, record_failed, record_job_encountered] at h
    | saveComplete pid d =>
      rw [hdec] at hrun
      dsimp only at hrun
      by_cases hex : job_exists st.store pid = true
      · rw [if_pos hex] at hrun
        by_cases hth : TH ≤ (record_duplicate (record_job_encountered st.stats)).consecutive_duplicates
        · rw [if_pos hth] at hrun
          exact absurd hrun (by simp)
        · rw [if_neg hth] at hrun
          cases hrun
          rcases hsave with h | h <;>
            simp [record_duplicate, record_job_encountered] at h
      · rw [if_neg hex] at hrun
        by_cases hok : (insert_job_offer st.store d).1.1 = true
        · rw [if_pos hok] at hrun
          cases hrun
          simp [record_job_saved_complete]
        · rw [if_neg hok] at hrun
          cases hrun
          rcases hsave with h | h <;>
            simp [record_error, record_failed, record_job_encountered] at h
    | saveIncomplete pid d missing =>
      rw [hdec] at hrun
      dsimp only at hrun
      by_cases hok : (insert_job_offer_incomplete st.store d missing).1.1 = true
      · rw [if_pos hok] at hrun
        cases hrun
        simp [record_job_saved_incomplete]
      · rw [if_neg hok] at hrun
        cases hrun
        rcases hsave with h | h <;>
          simp [record_error, record_failed, record_job_encountered] at h

/-- C2 witness: the amended duplicate rule at a concrete complete item whose
identifier sits in the incomplete store. -/
theorem duplicate_rule_amended_witness :
    (process_item 10 1 0 (some (scenarioJob (pstr "X")), true)
        ⟨{}, ⟨[], [pstr "X"]⟩⟩).stats.jobs_skipped_duplicate = 1 ∧
    (process_item 10 1 0 (some (scenarioJob (pstr "X")), true)
        ⟨{}, ⟨[], [pstr "X"]⟩⟩).store = Store.mk [] [pstr "X"] := by
  have h := duplicate_rule_amended.1 10 1 0 (scenarioJob (pstr "X")) (pstr "X")
    ⟨{}, ⟨[], [pstr "X"]⟩⟩ rfl (by decide) (by decide)
  exact ⟨h.2.1, h.1⟩

/-! ### Date-normalization lemmas -/

/-- Code point of a rendered digit. -/
lemma toNat_digitChar (n : Nat) : (digitChar n).toNat = 48 + n % 10 := by
  have h : n % 10 < 10 := Nat.mod_lt _ (by norm_num)
  unfold digitChar
  set k := n % 10 with hk
  interval_cases k <;> decide

/-- A rendered digit is a digit. -/
lemma isDigit_digitChar (n : Nat) : isDigit (digitChar n) = true := by
  simp only [isDigit, toNat_digitChar, Bool.and_eq_true, decide_eq_true_eq]
  omega

/-- Digit rendering and reading are inverse. -/
lemma digitVal_digitChar (n : Nat) : digitVal (digitChar n) = n % 10 := by
  simp [digitVal, toNat_digitChar]

/-- A rendered digit is not whitespace. -/
lemma isPySpace_digitChar (n : Nat) : isPySpace (digitChar n) = false := by
  simp only [isPySpace, toNat_digitChar, Bool.or_eq_false_iff, beq_eq_false_iff_ne, ne_eq]
  omega

/-- On a zero-padded two-digit day, the first `%d` alternative that matches
carries the day's value. -/
lemma dayAlts_pad2 (d : Nat) (h1 : 1 ≤ d) (h2 : d ≤ 31) (r : Str) :
    ∃ tail, dayAlts (pad2 d ++ r) = (d, r) :: tail := by
  interval_cases d <;> exact ⟨_, rfl⟩

/-- On a zero-padded two-digit month, the first `%m` alternative that
matches carries the month's value. -/
lemma monthAlts_pad2 (m : Nat) (h1 : 1 ≤ m) (h2 : m ≤ 12) (r : Str) :
    ∃ tail, monthAlts (pad2 m ++ r) = (m, r) :: tail := by
  interval_cases m <;> exact ⟨_, rfl⟩

/-- `%Y` reads back a zero-padded four-digit year. -/
lemma year4_pad4 (y : Nat) (h : y ≤ 9999) (r : Str) : year4 (pad4 y ++ r) = some (y, r) := by
  show year4 (digitChar (y / 1000) :: digitChar (y / 100) :: digitChar (y / 10) ::
    digitChar y :: r) = some (y, r)
  simp only [year4, isDigit_digitChar, Bool.and_self, if_true, natOfDigits, List.foldl,
    digitVal_digitChar, Option.some.injEq, Prod.mk.injEq, and_true]
  omega

/-- A successful first alternative settles the backtracking. -/
lemma tryAlts_cons_some {α : Type} {k : Nat → Str → Option α} {v : Nat} {r : Str} {x : α}
    (h : k v r = some x) (tail : List (Nat × Str)) : tryAlts ((v, r) :: tail) k = some x := by
  simp [tryAlts, h]

/-- `dropWhile` is the identity when no element satisfies the predicate. -/
lemma dropWhile_eq_self (p : Char → Bool) (s : Str) (h : ∀ c ∈ s, p c = false) :
    s.dropWhile p = s := by
  cases s with
  | nil => rfl
  | cons a l => simp [List.dropWhile, h a (List.mem_cons_self a l)]

/-- Stripping whitespace from a whitespace-free string is the identity. -/
lemma pyStripWs_eq_self (s : Str) (h : ∀ c ∈ s, isPySpace c = false) : pyStripWs s = s := by
  unfold pyStripWs pyStrip
  rw [dropWhile_eq_self _ _ h, dropWhile_eq_self, List.reverse_reverse]
  intro c hc
  exact h c (by simpa using hc)

/-- A rendered `DD/MM/YYYY` string contains no whitespace. -/
lemma renderDMY_no_space (d m y : Nat) : ∀ c ∈ renderDMY d m y, isPySpace c = false := by
  intro c hc
  simp only [renderDMY, pad2, pad4, List.mem_append, List.mem_cons, List.not_mem_nil,
    or_false] at hc
  rcases hc with (rfl | rfl) | rfl | (rfl | rfl) | rfl | (rfl | rfl | rfl | rfl) <;>
    first
      | exact isPySpace_digitChar _
      | decide

/-- The `datetime` constructor checks bound every component (days in a
month never exceed 31). -/
lemma dateValid_bounds {y m d : Nat} (h : dateValid y m d = true) :
    1 ≤ y ∧ y ≤ 9999 ∧ 1 ≤ m ∧ m ≤ 12 ∧ 1 ≤ d ∧ d ≤ 31 := by
  have h31 : daysInMonth y m ≤ 31 := by
    unfold daysInMonth
    split
    · split <;> omega
    · split <;> omega
  simp only [dateValid, Bool.and_eq_true, decide_eq_true_eq] at h
  omega

/-- `strptime("%d/%m/%Y")` reads a rendered `DD/MM/YYYY` string back to its
components. -/
lemma parse_dmY_render (d m y : Nat) (hd1 : 1 ≤ d) (hd2 : d ≤ 31)
    (hm1 : 1 ≤ m) (hm2 : m ≤ 12) (hy : y ≤ 9999) :
    parse_dmY (renderDMY d m y) = some (d, m, y) := by
  obtain ⟨tl1, h1⟩ := dayAlts_pad2 d hd1 hd2 ('/' :: (pad2 m ++ '/' :: pad4 y))
  obtain ⟨tl2, h2⟩ := monthAlts_pad2 m hm1 hm2 ('/' :: pad4 y)
  have hy4 : year4 (pad4 y) = some (y, []) := by simpa using year4_pad4 y hy []
  unfold parse_dmY
  rw [show renderDMY d m y = pad2 d ++ ('/' :: (pad2 m ++ '/' :: pad4 y)) from rfl]
  rw [h1]
  refine tryAlts_cons_some ?_ tl1
  simp only [slashThen, beq_self_eq_true, if_true]
  rw [h2]
  refine tryAlts_cons_some ?_ tl2
  simp only [slashThen, beq_self_eq_true, if_true]
  rw [hy4]
  rfl

/-- A rendered `DD/MM/YYYY` string is non-empty. -/
lemma renderDMY_ne (d m y : Nat) : (renderDMY d m y).isEmpty = false := by
  simp [renderDMY, pad2]

/-- C5: date normalization maps every valid calendar date written as
`DD/MM/YYYY` to the same day rendered ISO `YYYY-MM-DD`; the malformed
strings `"31/02/2025"` and `"2025-12-19"` yield a failure with an error
reason; and any successful result renders exactly the calendar day parsed
from the input, never a different one. -/
theorem clean_date_roundtrip :
    (∀ d m y, dateValid y m d = true →
      clean_date (.str (renderDMY d m y)) = ⟨some (iso_of y m d), none⟩) ∧
    clean_date (.str (pstr "31/02/2025")) = ⟨none, some dateParseFailMsg⟩ ∧
    clean_date (.str (pstr "2025-12-19")) = ⟨none, some dateParseFailMsg⟩ ∧
    (∀ s out, (clean_date (.str s)).value = some out →
      ∃ d m y, parse_dmY (pyStripWs s) = some (d, m, y) ∧ dateValid y m d = true ∧
        out = iso_of y m d) := by
  refine ⟨?_, by decide, by decide, ?_⟩
  · intro d m y hv
    obtain ⟨hy1, hy2, hm1, hm2, hd1, hd2⟩ := dateValid_bounds hv
    have hstrip : pyStripWs (renderDMY d m y) = renderDMY d m y :=
      pyStripWs_eq_self _ (renderDMY_no_space d m y)
    have hparse := parse_dmY_render d m y hd1 hd2 hm1 hm2 hy2
    simp [clean_date, renderDMY_ne, hstrip, hparse, hv]
  · intro s out h
    by_cases hne : s.isEmpty = true
    · simp [clean_date, hne] at h
    · simp only [clean_date, hne, Bool.false_eq_true, if_false] at h
      cases hp : parse_dmY (pyStripWs s) with
      | none =>
        rw [hp] at h
        simp at h
      | some t =>
        obtain ⟨d, m, y⟩ := t
        rw [hp] at h
        by_cases hv : dateValid y m d = true
        · refine ⟨d, m, y, rfl, hv, ?_⟩
          simp [hv] at h
          exact h.symm
        · simp [hv] at h

/-- C5 witness: the round trip at 19/12/2025 and the soundness direction at
the same concrete input. -/
theorem clean_date_roundtrip_witness :
    clean_date (.str (renderDMY 19 12 2025)) = ⟨some (iso_of 2025 12 19), none⟩ ∧
    ∃ d m y, parse_dmY (pyStripWs (pstr "19/12/2025")) = some (d, m, y) ∧
      dateValid y m d = true ∧ pstr "2025-12-19" = iso_of y m d :=
  ⟨clean_date_roundtrip.1 19 12 2025 (by decide),
   clean_date_roundtrip.2.2.2 (pstr "19/12/2025") (pstr "2025-12-19") (by decide)⟩

/-! ### Title-classification fusion lemmas -/

/-- A stable descending sort is sorted. -/
lemma sorted_sortDescBy (key : α → Nat) (l : List α) :
    List.Sorted (fun a b => key b ≤ key a) (sortDescBy key l) := by
  haveI h1 : IsTotal α (fun a b => key b ≤ key a) := ⟨fun a b => le_total (key b) (key a)⟩
  haveI h2 : IsTrans α (fun a b => key b ≤ key a) := ⟨fun _ _ _ hab hbc => le_trans hbc hab⟩
  exact List.sorted_insertionSort _ _

/-- Sorting permutes, so membership is preserved. -/
lemma mem_sortDescBy {key : α → Nat} {l : List α} {c : α} :
    c ∈ sortDescBy key l ↔ c ∈ l :=
  (List.perm_insertionSort _ _).mem_iff

/-- Sorting preserves length. -/
lemma length_sortDescBy (key : α → Nat) (l : List α) :
    (sortDescBy key l).length = l.length :=
  List.length_insertionSort _ _

/-- A dict upsert only contributes the new entry or old entries. -/
lemma mem_dictUpsert (l : List FusedCand) (x : FusedCand) (c : FusedCand)
    (hc : c ∈ dictUpsert l x) : c = x ∨ c ∈ l := by
  unfold dictUpsert at hc
  split at hc
  · obtain ⟨y, hy, hxy⟩ := List.mem_map.mp hc
    by_cases h : y.codigo == x.codigo
    · rw [if_pos h] at hxy
      exact Or.inl hxy.symm
    · rw [if_neg h] at hxy
      exact Or.inr (hxy ▸ hy)
  · rcases List.mem_append.mp hc with h | h
    · exact Or.inr h
    · exact Or.inl (by simpa using h)

/-- Invariant over the semantic-candidate fold of the fusion loop. -/
lemma foldl_dictUpsert_forall (P : FusedCand → Prop) (f : Cand → FusedCand)
    (ms : List Cand) (acc : List FusedCand)
    (hacc : ∀ c ∈ acc, P c) (hms : ∀ m ∈ ms, P (f m)) :
    ∀ c ∈ ms.foldl (fun a m => dictUpsert a (f m)) acc, P c := by
  induction ms generalizing acc with
  | nil => exact fun c hc => hacc c hc
  | cons m rest ih =>
    intro c hc
    refine ih (dictUpsert acc (f m)) ?_ (fun m' hm' => hms m' (List.mem_cons_of_mem _ hm')) c hc
    intro c' hc'
    rcases mem_dictUpsert _ _ _ hc' with rfl | h
    · exact hms m (List.mem_cons_self _ _)
    · exact hacc c' h

/-- Invariant over the fuzzy-only fold of the fusion loop. -/
lemma foldl_condAppend_forall (P : FusedCand → Prop) (f : Cand → FusedCand)
    (ms : List Cand) (acc : List FusedCand)
    (hacc : ∀ c ∈ acc, P c) (hms : ∀ m ∈ ms, P (f m)) :
    ∀ c ∈ ms.foldl
      (fun a m => if a.any (fun x => x.codigo == m.codigo) then a else a ++ [f m]) acc, P c := by
  induction ms generalizing acc with
  | nil => exact fun c hc => hacc c hc
  | cons m rest ih =>
    intro c hc
    refine ih _ ?_ (fun m' hm' => hms m' (List.mem_cons_of_mem _ hm')) c hc
    intro c' hc'
    dsimp only at hc'
    split at hc'
    · exact hacc c' hc'
    · rcases List.mem_append.mp hc' with h | h
      · exact hacc c' h
      · exact (by simpa using h : c' = f m) ▸ hms m (List.mem_cons_self _ _)

/-- A matcher candidate is a scored taxonomy entry. -/
lemma mem_match_title {f : Str → Str → Nat} {tax : List (Str × Str)} {k : Nat} {m : Cand}
    (hm : m ∈ match_title f tax k) :
    ∃ cd, cd ∈ tax ∧ m = ⟨cd.1, cd.2, f cd.1 cd.2⟩ := by
  unfold match_title at hm
  have h2 := mem_sortDescBy.mp (List.mem_of_mem_take hm)
  obtain ⟨cd, hcd, h⟩ := List.mem_map.mp h2
  exact ⟨cd, hcd, h.symm⟩

/-- Every fused candidate is a semantic-top-5 entry with its on-demand
fuzzy score, or a fuzzy-top-5 entry with its on-demand semantic score. -/
lemma fuse_mem_shape (tax : List (Str × Str)) (sem fuz : Str → Str → Nat) :
    ∀ c ∈ fuse_top3 tax sem fuz,
      (∃ m ∈ match_title sem tax 5, c = ⟨m.codigo, m.descripcion, m.confidence,
        lookupConf (match_title fuz tax 999) m.codigo,
        max m.confidence (lookupConf (match_title fuz tax 999) m.codigo)⟩) ∨
      (∃ m ∈ match_title fuz tax 5, c = ⟨m.codigo, m.descripcion,
        lookupConf (match_title sem tax 999) m.codigo, m.confidence,
        max (lookupConf (match_title sem tax 999) m.codigo) m.confidence⟩) := by
  intro c hc
  unfold fuse_top3 at hc
  have hc2 := mem_sortDescBy.mp (List.mem_of_mem_take hc)
  refine foldl_condAppend_forall
    (fun c =>
      (∃ m ∈ match_title sem tax 5, c = ⟨m.codigo, m.descripcion, m.confidence,
        lookupConf (match_title fuz tax 999) m.codigo,
        max m.confidence (lookupConf (match_title fuz tax 999) m.codigo)⟩) ∨
      (∃ m ∈ match_title fuz tax 5, c = ⟨m.codigo, m.descripcion,
        lookupConf (match_title sem tax 999) m.codigo, m.confidence,
        max (lookupConf (match_title sem tax 999) m.codigo) m.confidence⟩))
    _ _ _ ?_ ?_ c hc2
  · refine foldl_dictUpsert_forall _ _ _ _ ?_ ?_
    · intro c' hc'
      simp at hc'
    · intro m hm
      exact Or.inl ⟨m, hm, rfl⟩
  · intro m hm
    exact Or.inr ⟨m, hm, rfl⟩

/-- `find?` returns the element when it is the unique match. -/
lemma find?_eq_some_of_unique {p : α → Bool} {l : List α} {e : α}
    (he : e ∈ l) (hp : p e = true) (huniq : ∀ x ∈ l, p x = true → x = e) :
    l.find? p = some e := by
  induction l with
  | nil => cases he
  | cons a l ih =>
    by_cases ha : p a = true
    · have : a = e := huniq a (List.mem_cons_self _ _) ha
      subst this
      simp [List.find?_cons, ha]
    · have haf : p a = false := by simpa using ha
      have hne : e ≠ a := fun h => ha (h ▸ hp)
      have he' : e ∈ l := by
        rcases List.mem_cons.mp he with h | h
        · exact absurd h hne
        · exact h
      simp only [List.find?_cons, haf]
      exact ih he' (fun x hx hpx => huniq x (List.mem_cons_of_mem _ hx) hpx)

/-- In a taxonomy with distinct codes, a code determines its description. -/
lemma pairs_nodup_fst {tax : List (Str × Str)} (h : (tax.map Prod.fst).Nodup)
    {a b c : Str} (h1 : (a, b) ∈ tax) (h2 : (a, c) ∈ tax) : b = c := by
  induction tax with
  | nil => cases h1
  | cons p rest ih =>
    simp only [List.map_cons, List.nodup_cons] at h
    rcases List.mem_cons.mp h1 with e1 | h1' <;> rcases List.mem_cons.mp h2 with e2 | h2'
    · simpa using congrArg Prod.snd (e1.trans e2.symm)
    · subst e1
      exact absurd (by simpa using List.mem_map_of_mem Prod.fst h2') h.1
    · subst e2
      exact absurd (by simpa using List.mem_map_of_mem Prod.fst h1') h.1
    · exact ih h.2 h1' h2'

/-- On a taxonomy of at most 999 distinctly-coded entries, the top-999
lookup recovers the ranker's true score of a taxonomy entry. -/
lemma lookupConf_full {g : Str → Str → Nat} {tax : List (Str × Str)}
    (hlen : tax.length ≤ 999) (hnd : (tax.map Prod.fst).Nodup)
    {code desc : Str} (hmem : (code, desc) ∈ tax) :
    lookupConf (match_title g tax 999) code = g code desc := by
  unfold match_title lookupConf
  rw [List.take_of_length_le (by
    rw [length_sortDescBy, List.length_map]
    exact hlen)]
  have he : (⟨code, desc, g code desc⟩ : Cand) ∈
      sortDescBy (fun c : Cand => c.confidence)
        (tax.map fun cd => (⟨cd.1, cd.2, g cd.1 cd.2⟩ : Cand)) :=
    mem_sortDescBy.mpr (List.mem_map_of_mem _ hmem)
  have huniq : ∀ x ∈ sortDescBy (fun c : Cand => c.confidence)
      (tax.map fun cd => (⟨cd.1, cd.2, g cd.1 cd.2⟩ : Cand)),
      (x.codigo == code) = true → x = (⟨code, desc, g code desc⟩ : Cand) := by
    intro x hx hpx
    obtain ⟨cd, hcd, rfl⟩ := List.mem_map.mp (mem_sortDescBy.mp hx)
    have hfst : cd.1 = code := by simpa using hpx
    have hsnd : cd.2 = desc := by
      refine pairs_nodup_fst hnd ?_ hmem
      rw [← hfst]
      simpa using hcd
    rw [hfst, hsnd]
  rw [find?_eq_some_of_unique he (by simp) huniq]

/-- C7 counterexample: with taxonomy codes `1` and `2` both reaching
combined score 80 (code 1 via the lexical ranker, code 2 via the semantic
ranker), the fusion returns code 2 before code 1 — the tie is not broken by
category code ascending. -/
theorem fusion_tie_break_counterexample :
    (fuse_top3 c7tax c7sem c7fuz).map (fun c => c.codigo) = [pstr "2", pstr "1"] ∧
    (∀ c ∈ fuse_top3 c7tax c7sem c7fuz, c.best_confidence = 80) ∧
    (fuse_top3 c7tax c7sem c7fuz).map (fun c => c.codigo) ≠ [pstr "1", pstr "2"] := by
  exact ⟨by decide, by decide, by decide⟩

/-- C7 (amended): the fusion scores every candidate of the union of the two
top-5 sets with `combined = max(semantic, lexical)` (each score computed on
demand from the other ranker when the taxonomy has at most 999 distinctly
coded entries), and returns at most 3 candidates sorted descending by
combined score — with ties broken by insertion order (semantic candidates
first, as the concrete run shows), not by category code. -/
theorem fusion_rank_amended :
    (∀ (tax : List (Str × Str)) (sem fuz : Str → Str → Nat),
      List.Sorted (fun a b : FusedCand => b.best_confidence ≤ a.best_confidence)
        (fuse_top3 tax sem fuz) ∧
      (fuse_top3 tax sem fuz).length ≤ 3 ∧
      ∀ c ∈ fuse_top3 tax sem fuz,
        c.best_confidence = max c.semantic_confidence c.fuzzy_confidence ∧
        (c.codigo ∈ (match_title sem tax 5).map Cand.codigo ∨
          c.codigo ∈ (match_title fuz tax 5).map Cand.codigo)) ∧
    (∀ (tax : List (Str × Str)) (sem fuz : Str → Str → Nat), tax.length ≤ 999 →
      (tax.map Prod.fst).Nodup →
      ∀ c ∈ fuse_top3 tax sem fuz, ∃ desc, (c.codigo, desc) ∈ tax ∧
        c.semantic_confidence = sem c.codigo desc ∧
        c.fuzzy_confidence = fuz c.codigo desc) ∧
    (fuse_top3 c7tax c7sem c7fuz).map (fun c => c.codigo) = [pstr "2", pstr "1"] := by
  refine ⟨?_, ?_, by decide⟩
  · intro tax sem fuz
    refine ⟨?_, ?_, ?_⟩
    · unfold fuse_top3
      exact List.Pairwise.sublist (List.take_sublist _ _) (sorted_sortDescBy _ _)
    · unfold fuse_top3
      exact List.length_take_le _ _
    · intro c hc
      rcases fuse_mem_shape tax sem fuz c hc with ⟨m, hm, rfl⟩ | ⟨m, hm, rfl⟩
      · exact ⟨rfl, Or.inl (List.mem_map_of_mem _ hm)⟩
      · exact ⟨rfl, Or.inr (List.mem_map_of_mem _ hm)⟩
  · intro tax sem fuz hlen hnd c hc
    rcases fuse_mem_shape tax sem fuz c hc with ⟨m, hm, rfl⟩ | ⟨m, hm, rfl⟩
    · obtain ⟨cd, hcd, rfl⟩ := mem_match_title hm
      refine ⟨cd.2, by simpa using hcd, rfl, ?_⟩
      exact lookupConf_full hlen hnd (by simpa using hcd)
    · obtain ⟨cd, hcd, rfl⟩ := mem_match_title hm
      refine ⟨cd.2, by simpa using hcd, ?_, rfl⟩
      exact lookupConf_full hlen hnd (by simpa using hcd)

/-- C7 witness: the on-demand-score characterization applied to the
two-entry taxonomy at its first fused candidate. -/
theorem fusion_rank_amended_witness :
    ∃ desc, ((⟨pstr "2", pstr "D2", 80, 10, 80⟩ : FusedCand).codigo, desc) ∈ c7tax ∧
      (⟨pstr "2", pstr "D2", 80, 10, 80⟩ : FusedCand).semantic_confidence =
        c7sem (⟨pstr "2", pstr "D2", 80, 10, 80⟩ : FusedCand).codigo desc ∧
      (⟨pstr "2", pstr "D2", 80, 10, 80⟩ : FusedCand).fuzzy_confidence =
        c7fuz (⟨pstr "2", pstr "D2", 80, 10, 80⟩ : FusedCand).codigo desc :=
  fusion_rank_amended.2.1 c7tax c7sem c7fuz (by decide) (by decide) _ (by decide)

end Servir
